import Mathlib

/-!
Verification of the Rocket Rides idempotency layer and its JSON helpers.

The idempotency-key store and lock manager are modelled from the design
specification (the `idempotency` package itself ships only its tests here);
the `send` package's `WriteJSON` and `Read` are embedded from `send/json.go`.
Machine state (the database, the HTTP response writer, the reader) is passed
explicitly; timestamps are naturals; byte strings are Lean `String`s compared
byte-for-byte by equality.
-/

namespace RocketRides

/-- Modelled from the spec: the closed, ordered recovery-point enumeration
`started`, `ride_created`, `charge_created`, `finished` of the missing
`idempotency` package (spec section 3). -/
inductive RecoveryPoint where
  | started
  | rideCreated
  | chargeCreated
  | finished
deriving DecidableEq, Fintype

/-- Position of a recovery point in the canonical order. -/
def RecoveryPoint.idx : RecoveryPoint → Nat
  | .started => 0
  | .rideCreated => 1
  | .chargeCreated => 2
  | .finished => 3

/-- Modelled from the spec: recovery points persist as short strings and any
unknown tag is rejected at read as data corruption (spec sections 3 and 9). -/
def parseRecoveryPoint (s : String) : Except String RecoveryPoint :=
  if s = "started" then Except.ok RecoveryPoint.started
  else if s = "ride_created" then Except.ok RecoveryPoint.rideCreated
  else if s = "charge_created" then Except.ok RecoveryPoint.chargeCreated
  else if s = "finished" then Except.ok RecoveryPoint.finished
  else Except.error ("corrupt recovery point: " ++ s)

/-- Mirrors the Go constant `idempotency.StartedRecoveryPoint`. -/
def StartedRecoveryPoint : RecoveryPoint := RecoveryPoint.started

/-- Mirrors the Go constant `idempotency.RideCreatedRecoveryPoint`. -/
def RideCreatedRecoveryPoint : RecoveryPoint := RecoveryPoint.rideCreated

/-- Mirrors the Go constant `idempotency.ChargeCreatedRecoveryPoint`. -/
def ChargeCreatedRecoveryPoint : RecoveryPoint := RecoveryPoint.chargeCreated

/-- Mirrors the Go constant `idempotency.FinishedRecoveryPoint`. -/
def FinishedRecoveryPoint : RecoveryPoint := RecoveryPoint.finished

/-- Modelled from the spec: the idempotency-key row of the missing
`idempotency` package (spec section 3), field for field as in the test
fixtures of the `idempotency_test` package.  `Option` stands for the SQL
nullable columns; timestamps are naturals. -/
structure Key where
  id : Nat
  createdAt : Nat
  userID : Nat
  key : String
  requestMethod : String
  requestPath : String
  requestParams : String
  lastRunAt : Nat
  lockedAt : Option Nat
  responseCode : Option Nat
  responseBody : Option String
  recoveryPoint : RecoveryPoint
deriving DecidableEq

/-- Modelled from the spec: the insert parameters of the missing
`idempotency.KeyParams`, as used by `Test_InsertIdempotencyKey`. -/
structure KeyParams where
  key : String
  requestMethod : String
  requestParams : String
  requestPath : String
  userID : Nat
deriving DecidableEq

/-- A database state: the `idempotency_keys` table as a list of rows. -/
abbrev DB := List Key

/-- Look a row up by surrogate id (the primary key used by Update). -/
def rowById (db : DB) (i : Nat) : Option Key :=
  db.find? (fun r => r.id == i)

/-- Modelled from the spec: `Find(tx, user_id, key)` of the missing Key
Store — returns the full row for `(user_id, key)` or signals not-found
(`none`), performing no writes (spec section 4.1). -/
def FindKey (db : DB) (userID : Nat) (key : String) : Option Key :=
  db.find? (fun r => r.userID == userID && r.key == key)

/-- Key Store and lock-manager failures. -/
inductive KeyStoreError where
  | conflict
  | notFound
  | finishedImmutable
  | invalidTransition
  | invalidResponseFields
deriving DecidableEq

/-- Modelled from the spec: the row Insert creates — `recovery_point =
started`, `locked_at = now`, null response fields, populated timestamps and
the frozen request fields copied from the parameters (spec section 4.1). -/
def freshKey (db : DB) (params : KeyParams) (now : Nat) : Key :=
  { id := db.length + 1
    createdAt := now
    userID := params.userID
    key := params.key
    requestMethod := params.requestMethod
    requestPath := params.requestPath
    requestParams := params.requestParams
    lastRunAt := now
    lockedAt := some now
    responseCode := none
    responseBody := none
    recoveryPoint := RecoveryPoint.started }

/-- Modelled from the spec: `Insert(tx, params)` of the missing Key Store —
inserts the fresh row, or fails with a conflict when `(user_id, key)`
already exists (spec section 4.1). -/
def InsertKey (db : DB) (params : KeyParams) (now : Nat) :
    Except KeyStoreError (Key × DB) :=
  match FindKey db params.userID params.key with
  | some _ => Except.error KeyStoreError.conflict
  | none => Except.ok (freshKey db params now, db ++ [freshKey db params now])

/-- A transition of the recovery point permitted by invariant I5: stay put,
advance one step along the canonical order, or jump directly to `finished`. -/
def validTransition (old new : RecoveryPoint) : Bool :=
  new == old || new.idx == old.idx + 1 || new == RecoveryPoint.finished

/-- Invariant I2 at one row: response code and body are both present exactly
when the recovery point is `finished`. -/
def responseFieldsConsistent (r : Key) : Bool :=
  (r.responseCode.isSome && r.responseBody.isSome)
    == (r.recoveryPoint == RecoveryPoint.finished)

/-- Modelled from the spec: `Update(tx, key)` of the missing Key Store —
updates the mutable fields (`recovery_point`, `locked_at`, `last_run_at`,
`response_code`, `response_body`) by primary key, rejects updates violating
invariants I2, I4 or I5, and returns the post-update row
(spec section 4.1). -/
def UpdateKey (db : DB) (k : Key) : Except KeyStoreError (Key × DB) :=
  match rowById db k.id with
  | none => Except.error KeyStoreError.notFound
  | some stored =>
    let updated : Key :=
      { stored with
          recoveryPoint := k.recoveryPoint
          lockedAt := k.lockedAt
          lastRunAt := k.lastRunAt
          responseCode := k.responseCode
          responseBody := k.responseBody }
    if stored.recoveryPoint == RecoveryPoint.finished then
      Except.error KeyStoreError.finishedImmutable
    else if !(validTransition stored.recoveryPoint updated.recoveryPoint) then
      Except.error KeyStoreError.invalidTransition
    else if !(responseFieldsConsistent updated) then
      Except.error KeyStoreError.invalidResponseFields
    else
      Except.ok (updated, db.map (fun r => if r.id == k.id then updated else r))

/-- Lock-manager failures of the acquire protocol, with their HTTP status. -/
inductive AcqError where
  | requestMismatch
  | locked
deriving DecidableEq

/-- HTTP status surfaced for each acquire failure (spec sections 4.2 and 7). -/
def AcqError.httpStatus : AcqError → Nat
  | .requestMismatch => 409
  | .locked => 409

/-- Outcome of a successful acquire: the key, whether it was freshly
inserted, and whether the stored response is to be replayed. -/
structure AcqResult where
  key : Key
  isNew : Bool
  replay : Bool
deriving DecidableEq

/-- Set `locked_at := now` on the row with the given id. -/
def lockRow (db : DB) (i : Nat) (now : Nat) : DB :=
  db.map (fun r => if r.id == i then { r with lockedAt := some now } else r)

/-- Modelled from the spec: the missing lock manager's acquire protocol
(spec section 4.2) — find or insert the row, validate the frozen request
fields, replay a finished key without taking the lease, otherwise take the
lease when it is free or expired, or fail Locked.  Returns the outcome and
the committed database (unchanged on failure). -/
def Acquire (db : DB) (userID : Nat) (key method path params : String)
    (now ttl : Nat) : Except AcqError AcqResult × DB :=
  match FindKey db userID key with
  | none =>
    match InsertKey db
        { key := key, requestMethod := method, requestParams := params,
          requestPath := path, userID := userID } now with
    | Except.ok (k, db2) =>
      (Except.ok { key := k, isNew := true, replay := false }, db2)
    | Except.error _ => (Except.error AcqError.locked, db)
  | some row =>
    if row.requestMethod == method && row.requestPath == path
        && row.requestParams == params then
      if row.recoveryPoint == RecoveryPoint.finished then
        (Except.ok { key := row, isNew := false, replay := true }, db)
      else
        match row.lockedAt with
        | none =>
          (Except.ok { key := { row with lockedAt := some now },
                       isNew := false, replay := false },
           lockRow db row.id now)
        | some t =>
          if t + ttl < now then
            (Except.ok { key := { row with lockedAt := some now },
                         isNew := false, replay := false },
             lockRow db row.id now)
          else
            (Except.error AcqError.locked, db)
    else
      (Except.error AcqError.requestMismatch, db)

/-- A committed operation against the key table. -/
inductive Op where
  | insertOp (params : KeyParams) (now : Nat)
  | updateOp (k : Key)
  | acquireOp (userID : Nat) (key method path params : String) (now ttl : Nat)

/-- Apply one operation; a failed operation rolls back and leaves the
database unchanged. -/
def applyOp (db : DB) : Op → DB
  | .insertOp p now =>
    match InsertKey db p now with
    | Except.ok (_, db2) => db2
    | Except.error _ => db
  | .updateOp k =>
    match UpdateKey db k with
    | Except.ok (_, db2) => db2
    | Except.error _ => db
  | .acquireOp uid k m p prm now ttl => (Acquire db uid k m p prm now ttl).2

/-- Apply a sequence of committed operations in order. -/
def applyTrace (db : DB) (ops : List Op) : DB :=
  ops.foldl applyOp db

/-- Invariant I2 over a whole database state. -/
def I2Holds (db : DB) : Prop :=
  ∀ r ∈ db, responseFieldsConsistent r = true

/-! ### The `send` package, embedded from `send/json.go` -/

/-- State of an `http.ResponseWriter`: headers, the status written by
`WriteHeader` (at most once; later calls are ignored, as in net/http), and
the bytes written to the body. -/
structure ResponseWriter where
  headers : List (String × String)
  status : Option Nat
  body : List Nat
deriving DecidableEq

/-- `w.Header().Set(name, value)`: replace any existing value for the name. -/
def setHeader (w : ResponseWriter) (name value : String) : ResponseWriter :=
  { w with headers := (name, value) :: w.headers.filter (fun h => !(h.1 == name)) }

/-- Look a header up by name. -/
def getHeader (w : ResponseWriter) (name : String) : Option String :=
  (w.headers.find? (fun h => h.1 == name)).map (fun h => h.2)

/-- `w.WriteHeader(status)`: records the status code once; subsequent calls
are ignored (net/http logs a superfluous call and does nothing). -/
def writeHeader (w : ResponseWriter) (status : Nat) : ResponseWriter :=
  match w.status with
  | none => { w with status := some status }
  | some _ => w

/-- Embeds `send.WriteJSON`: set the Content-Type header, write the status,
then run the JSON encoder (abstracted as `encode`, the behaviour of
`json.NewEncoder(w).Encode(data)`: on success its output bytes are written
to the body, on failure nothing is written) and return the encoder's error. -/
def WriteJSON {T : Type} (encode : T → Except String (List Nat))
    (w : ResponseWriter) (status : Nat) (data : T) :
    ResponseWriter × Option String :=
  let w1 := setHeader w "Content-Type" "application/json"
  let w2 := writeHeader w1 status
  match encode data with
  | Except.ok bs => ({ w2 with body := w2.body ++ bs }, none)
  | Except.error e => (w2, some e)

/-- Convert an encoder outcome to the error `WriteJSON` should return: `none`
(Go `nil`) on success, the encoder's error otherwise. -/
def encodeError (r : Except String (List Nat)) : Option String :=
  match r with
  | Except.ok _ => none
  | Except.error e => some e

/-- State of the `io.ReadCloser` handed to `send.Read`: the remaining input
bytes and whether `Close` has been called. -/
structure Reader where
  input : List Nat
  closed : Bool
deriving DecidableEq

/-- Embeds `send.Read`: `var v T` (the zero value), then
`json.NewDecoder(data).Decode(&v)` — abstracted as `decode`, which consumes
input and returns the (possibly mutated) target, an optional error and the
remaining input; `json.Decoder` only sees the `io.Reader` side, so `decode`
has no access to the closed flag.  On a decode error the error is wrapped as
`fmt.Errorf("decoding json: %w", err)` and the current `v` is returned. -/
def Read {T : Type} (zero : T)
    (decode : List Nat → T → T × Option String × List Nat) (r : Reader) :
    T × Option String × Reader :=
  let res := decode r.input zero
  match res.2.1 with
  | some e =>
    (res.1, some ("decoding json: " ++ e), { input := res.2.2, closed := r.closed })
  | none => (res.1, none, { input := res.2.2, closed := r.closed })

/-- A decoder exhibiting the documented behaviour of `encoding/json` on a
type error: decoding `\x7b"a":1,"b":"x"\x7d` into a struct of two ints sets
the field `a` to 1, then returns an `UnmarshalTypeError` for `b` (Unmarshal
continues past type errors and reports the first one), leaving the target
partially populated. -/
def typeErrorDecode : List Nat → Nat × Nat → (Nat × Nat) × Option String × List Nat :=
  fun input v =>
    ((1, v.2), some "cannot unmarshal string into field b of type int", input)

/-! ### Test fixtures, from the `idempotency_test` package -/

/-- The fixture `TestKeyRideCreated` of the test file (timestamps as 0). -/
def TestKeyRideCreated : Key :=
  { id := 737
    createdAt := 0
    userID := 123
    key := "testKeyRideCreated"
    requestMethod := "POST"
    requestPath := "/rides"
    requestParams := "\x7b\x7d"
    lastRunAt := 0
    lockedAt := none
    responseCode := none
    responseBody := none
    recoveryPoint := RideCreatedRecoveryPoint }

/-- The fixture `TestKeyFinished` of the test file (timestamps as 0). -/
def TestKeyFinished : Key :=
  { id := 738
    createdAt := 0
    userID := 123
    key := "testKeyFinished"
    requestMethod := "POST"
    requestPath := "/rides"
    requestParams := "\x7b\x7d"
    lastRunAt := 0
    lockedAt := none
    responseCode := some 201
    responseBody := some "\x7b\x7d"
    recoveryPoint := FinishedRecoveryPoint }

/-- The insert parameters of `Test_InsertIdempotencyKey`'s happy path. -/
def TestInsertParams : KeyParams :=
  { key := "awesomeKey"
    requestMethod := "POST"
    requestParams := "\x7b\x7d"
    requestPath := "/charges"
    userID := 123 }

/-- The update payload of `Test_UpdateIdempotencyKey`'s happy path: the
ride-created fixture advanced to `charge_created`. -/
def TestKeyChargeCreatedRow : Key :=
  { TestKeyRideCreated with recoveryPoint := ChargeCreatedRecoveryPoint }

/-- The row Insert produces for `TestInsertParams` on an empty table at
time 5. -/
def TestInsertedKey : Key := freshKey [] TestInsertParams 5

/-! ### Helper lemmas -/

theorem RecoveryPoint.idx_le_three : ∀ rp : RecoveryPoint, rp.idx ≤ 3 := by
  decide

theorem validTransition_le :
    ∀ a b : RecoveryPoint, validTransition a b = true → a.idx ≤ b.idx := by
  decide

theorem rowById_append {db : DB} {i : Nat} {r : Key} (k : Key)
    (h : rowById db i = some r) : rowById (db ++ [k]) i = some r := by
  unfold rowById at h ⊢
  rw [List.find?_append, h]
  rfl

theorem rowById_map {f : Key → Key} (hid : ∀ r, (f r).id = r.id) (db : DB)
    (i : Nat) : rowById (db.map f) i = (rowById db i).map f := by
  unfold rowById
  induction db with
  | nil => rfl
  | cons x xs ih =>
    simp only [List.map_cons, List.find?_cons, hid]
    cases x.id == i <;> simp [ih]

theorem InsertKey_ok {db : DB} {p : KeyParams} {now : Nat} {k : Key} {db2 : DB}
    (h : InsertKey db p now = Except.ok (k, db2)) :
    db2 = db ++ [k] ∧ k.recoveryPoint = RecoveryPoint.started ∧
      k.responseCode = none ∧ k.responseBody = none ∧ k.lockedAt = some now ∧
      k.key = p.key ∧ k.userID = p.userID ∧ k.requestMethod = p.requestMethod ∧
      k.requestPath = p.requestPath ∧ k.requestParams = p.requestParams := by
  unfold InsertKey at h
  cases hf : FindKey db p.userID p.key <;> rw [hf] at h
  · injection h with h
    injection h with hk hdb
    subst hk hdb
    exact ⟨rfl, rfl, rfl, rfl, rfl, rfl, rfl, rfl, rfl, rfl⟩
  · exact absurd h (by simp)

theorem UpdateKey_ok {db : DB} {k u : Key} {db2 : DB}
    (h : UpdateKey db k = Except.ok (u, db2)) :
    ∃ stored, rowById db k.id = some stored ∧
      stored.recoveryPoint ≠ RecoveryPoint.finished ∧
      validTransition stored.recoveryPoint k.recoveryPoint = true ∧
      responseFieldsConsistent u = true ∧
      u.id = stored.id ∧ u.createdAt = stored.createdAt ∧
      u.userID = stored.userID ∧ u.key = stored.key ∧
      u.requestMethod = stored.requestMethod ∧
      u.requestPath = stored.requestPath ∧
      u.requestParams = stored.requestParams ∧
      u.recoveryPoint = k.recoveryPoint ∧ u.lockedAt = k.lockedAt ∧
      u.lastRunAt = k.lastRunAt ∧ u.responseCode = k.responseCode ∧
      u.responseBody = k.responseBody ∧
      db2 = db.map (fun r => if r.id == k.id then u else r) := by
  unfold UpdateKey at h
  cases hf : rowById db k.id <;> rw [hf] at h
  · exact absurd h (by simp)
  · rename_i stored
    refine ⟨stored, rfl, ?_⟩
    simp only [] at h
    by_cases h1 : (stored.recoveryPoint == RecoveryPoint.finished) = true
    · rw [if_pos h1] at h
      exact absurd h (by simp)
    · rw [if_neg h1] at h
      by_cases h2 :
          (!(validTransition stored.recoveryPoint k.recoveryPoint)) = true
      · rw [if_pos h2] at h
        exact absurd h (by simp)
      · rw [if_neg h2] at h
        by_cases h3 : (!(responseFieldsConsistent
            { stored with
                recoveryPoint := k.recoveryPoint
                lockedAt := k.lockedAt
                lastRunAt := k.lastRunAt
                responseCode := k.responseCode
                responseBody := k.responseBody })) = true
        · rw [if_pos h3] at h
          exact absurd h (by simp)
        · rw [if_neg h3] at h
          injection h with h
          injection h with hu hdb
          subst hu
          refine ⟨by simpa using h1, by simpa using h2, by simpa using h3,
            rfl, rfl, rfl, rfl, rfl, rfl, rfl, rfl, rfl, rfl, rfl, rfl, ?_⟩
          exact hdb.symm

theorem lockRow_rowById (db : DB) (j now i : Nat) :
    rowById (lockRow db j now) i = (rowById db i).map
      (fun r => if r.id == j then { r with lockedAt := some now } else r) := by
  unfold lockRow
  exact rowById_map (fun r => by cases hr : r.id == j <;> simp [hr]) db i

theorem Acquire_snd (db : DB) (uid : Nat) (key m p prm : String) (now ttl : Nat) :
    (Acquire db uid key m p prm now ttl).2 = db ∨
    (∃ k db2, InsertKey db
        { key := key, requestMethod := m, requestParams := prm,
          requestPath := p, userID := uid } now = Except.ok (k, db2) ∧
      (Acquire db uid key m p prm now ttl).2 = db2) ∨
    (∃ j, (Acquire db uid key m p prm now ttl).2 = lockRow db j now) := by
  unfold Acquire
  split
  · split
    · rename_i k db2 heq
      exact Or.inr (Or.inl ⟨k, db2, heq, rfl⟩)
    · exact Or.inl rfl
  · rename_i row heq
    split
    · split
      · exact Or.inl rfl
      · split
        · exact Or.inr (Or.inr ⟨row.id, rfl⟩)
        · split
          · exact Or.inr (Or.inr ⟨row.id, rfl⟩)
          · exact Or.inl rfl
    · exact Or.inl rfl

theorem applyOp_row_le (db : DB) (op : Op) (i : Nat) (r : Key)
    (h : rowById db i = some r) :
    ∃ r2, rowById (applyOp db op) i = some r2 ∧
      r.recoveryPoint.idx ≤ r2.recoveryPoint.idx := by
  cases op with
  | insertOp p now =>
    simp only [applyOp]
    cases hins : InsertKey db p now with
    | error e => simp only [hins]; exact ⟨r, h, Nat.le_refl _⟩
    | ok v =>
      obtain ⟨k, db2⟩ := v
      simp only [hins]
      obtain ⟨hdb2, -⟩ := InsertKey_ok hins
      subst hdb2
      exact ⟨r, rowById_append k h, Nat.le_refl _⟩
  | updateOp k =>
    simp only [applyOp]
    cases hupd : UpdateKey db k with
    | error e => simp only [hupd]; exact ⟨r, h, Nat.le_refl _⟩
    | ok v =>
      obtain ⟨u, db2⟩ := v
      simp only [hupd]
      obtain ⟨stored, hst, hnf, htr, hcons, hid, _, _, _, _, _, _, hrp, _, _,
        _, _, hdb2⟩ := UpdateKey_ok hupd
      subst hdb2
      have hsid : stored.id = k.id := by
        have := List.find?_some hst
        simpa using this
      have hfid : ∀ x : Key,
          ((fun r => if r.id == k.id then u else r) x).id = x.id := by
        intro x
        by_cases hx : (x.id == k.id) = true
        · have hxk : x.id = k.id := by simpa using hx
          simp [hx, hid, hsid, hxk]
        · simp [hx]
      rw [rowById_map hfid db i, h]
      refine ⟨_, rfl, ?_⟩
      by_cases hc : (r.id == k.id) = true
      · simp only [hc, if_true]
        have hri : r.id = i := by simpa using List.find?_some h
        have hik : i = k.id := by
          have : r.id = k.id := by simpa using hc
          omega
        rw [hik] at h
        rw [hst] at h
        injection h with h
        subst h
        rw [hrp]
        exact validTransition_le _ _ htr
      · simp [hc]
  | acquireOp uid key m pth prm now ttl =>
    simp only [applyOp]
    rcases Acquire_snd db uid key m pth prm now ttl with hsnd |
      ⟨k, db2, hins, hsnd⟩ | ⟨j, hsnd⟩
    · rw [hsnd]; exact ⟨r, h, Nat.le_refl _⟩
    · rw [hsnd]
      obtain ⟨hdb2, -⟩ := InsertKey_ok hins
      subst hdb2
      exact ⟨r, rowById_append k h, Nat.le_refl _⟩
    · rw [hsnd, lockRow_rowById, h]
      refine ⟨_, rfl, ?_⟩
      by_cases hc : (r.id == j) = true <;> simp [hc]

theorem responseFieldsConsistent_iff (r : Key) :
    responseFieldsConsistent r = true ↔
      ((r.responseCode.isSome && r.responseBody.isSome) = true ↔
        r.recoveryPoint = RecoveryPoint.finished) := by
  unfold responseFieldsConsistent
  cases hb : (r.responseCode.isSome && r.responseBody.isSome) <;>
    cases hr : r.recoveryPoint == RecoveryPoint.finished <;>
      simp_all

theorem I2Holds_append {db : DB} {k : Key} (h : I2Holds db)
    (hk : responseFieldsConsistent k = true) : I2Holds (db ++ [k]) := by
  intro r hr
  rcases List.mem_append.mp hr with hr | hr
  · exact h r hr
  · have : r = k := by simpa using hr
    subst this
    exact hk

theorem I2Holds_map {db : DB} {f : Key → Key} (_h : I2Holds db)
    (hf : ∀ a ∈ db, responseFieldsConsistent (f a) = true) :
    I2Holds (db.map f) := by
  intro r hr
  obtain ⟨a, ha, rfl⟩ := List.mem_map.mp hr
  exact hf a ha

theorem applyOp_I2 (db : DB) (op : Op) (h : I2Holds db) :
    I2Holds (applyOp db op) := by
  cases op with
  | insertOp p now =>
    simp only [applyOp]
    cases hins : InsertKey db p now with
    | error e => simpa only [hins] using h
    | ok v =>
      obtain ⟨k, db2⟩ := v
      simp only [hins]
      obtain ⟨hdb2, hrp, hcode, hbody, -⟩ := InsertKey_ok hins
      subst hdb2
      refine I2Holds_append h ?_
      simp [responseFieldsConsistent, hrp, hcode, hbody]
  | updateOp k =>
    simp only [applyOp]
    cases hupd : UpdateKey db k with
    | error e => simpa only [hupd] using h
    | ok v =>
      obtain ⟨u, db2⟩ := v
      simp only [hupd]
      obtain ⟨stored, hst, hnf, htr, hcons, -, -, -, -, -, -, -, -, -, -, -,
        -, hdb2⟩ := UpdateKey_ok hupd
      subst hdb2
      refine I2Holds_map h ?_
      intro a ha
      by_cases hc : (a.id == k.id) = true
      · simpa [hc] using hcons
      · simpa [hc] using h a ha
  | acquireOp uid key m pth prm now ttl =>
    simp only [applyOp]
    rcases Acquire_snd db uid key m pth prm now ttl with hsnd |
      ⟨k, db2, hins, hsnd⟩ | ⟨j, hsnd⟩
    · rw [hsnd]; exact h
    · rw [hsnd]
      obtain ⟨hdb2, hrp, hcode, hbody, -⟩ := InsertKey_ok hins
      subst hdb2
      refine I2Holds_append h ?_
      simp [responseFieldsConsistent, hrp, hcode, hbody]
    · rw [hsnd]
      unfold lockRow
      refine I2Holds_map h ?_
      intro a ha
      by_cases hc : (a.id == j) = true
      · simpa [hc, responseFieldsConsistent] using h a ha
      · simpa [hc] using h a ha

theorem I2_trace (ops : List Op) (db : DB) (h : I2Holds db) :
    I2Holds (applyTrace db ops) := by
  induction ops generalizing db with
  | nil => exact h
  | cons op rest ih => exact ih (applyOp db op) (applyOp_I2 db op h)

/-! ### Claim theorems -/

/-- C1: after a key reaches `finished`, a further request bearing the same
`(user_id, key)` and the same frozen request fields is answered by the
acquire protocol with the stored row marked as a replay — hence the stored
`(response_code, response_body)` byte-for-byte — without taking the lease
(the returned row and the database keep their `locked_at`) and without any
write to the database. -/
theorem replay_after_finished (db : DB) (uid : Nat) (key : String)
    (row : Key) (now ttl : Nat)
    (hfind : FindKey db uid key = some row)
    (hfin : row.recoveryPoint = RecoveryPoint.finished) :
    Acquire db uid key row.requestMethod row.requestPath row.requestParams
        now ttl =
      (Except.ok { key := row, isNew := false, replay := true }, db) := by
  unfold Acquire
  simp [hfind, hfin]

theorem replay_after_finished_witness :
    FindKey [TestKeyFinished] 123 "testKeyFinished" = some TestKeyFinished ∧
    TestKeyFinished.recoveryPoint = RecoveryPoint.finished ∧
    Acquire [TestKeyFinished] 123 "testKeyFinished"
        TestKeyFinished.requestMethod TestKeyFinished.requestPath
        TestKeyFinished.requestParams 5 90 =
      (Except.ok { key := TestKeyFinished, isNew := false, replay := true },
        [TestKeyFinished]) :=
  ⟨rfl, rfl, replay_after_finished [TestKeyFinished] 123 "testKeyFinished"
    TestKeyFinished 5 90 rfl rfl⟩

/-- C2: across any sequence of committed operations, the recovery point of
a given row only moves forward along the canonical order
`started`, `ride_created`, `charge_created`, `finished` (jumping straight
to `finished` included); it never returns to an earlier recovery point. -/
theorem recovery_point_monotonic (db : DB) (ops : List Op) (i : Nat)
    (r r2 : Key) (h : rowById db i = some r)
    (h2 : rowById (applyTrace db ops) i = some r2) :
    r.recoveryPoint.idx ≤ r2.recoveryPoint.idx := by
  induction ops generalizing db r with
  | nil =>
    rw [show applyTrace db [] = db from rfl, h] at h2
    injection h2 with h2
    subst h2
    exact Nat.le_refl _
  | cons op rest ih =>
    obtain ⟨rm, hm, hle⟩ := applyOp_row_le db op i r h
    exact Nat.le_trans hle (ih (applyOp db op) rm hm h2)

theorem recovery_point_monotonic_witness :
    rowById [TestKeyRideCreated] 737 = some TestKeyRideCreated ∧
    rowById (applyTrace [TestKeyRideCreated]
        [Op.updateOp TestKeyChargeCreatedRow]) 737 =
      some TestKeyChargeCreatedRow ∧
    TestKeyRideCreated.recoveryPoint.idx ≤
      TestKeyChargeCreatedRow.recoveryPoint.idx :=
  ⟨rfl, by decide, recovery_point_monotonic [TestKeyRideCreated]
    [Op.updateOp TestKeyChargeCreatedRow] 737 TestKeyRideCreated
    TestKeyChargeCreatedRow rfl (by decide)⟩

/-- C3: invariant I2 — in every database state reachable from the empty
table by committed operations, a row's `response_code` and `response_body`
are both non-null exactly when its `recovery_point` is `finished`. -/
theorem response_columns_iff_finished (ops : List Op) (r : Key)
    (hr : r ∈ applyTrace [] ops) :
    ((r.responseCode.isSome && r.responseBody.isSome) = true ↔
      r.recoveryPoint = RecoveryPoint.finished) := by
  have h : I2Holds (applyTrace [] ops) :=
    I2_trace ops [] (by intro x hx; cases hx)
  exact (responseFieldsConsistent_iff r).mp (h r hr)

theorem response_columns_iff_finished_witness :
    TestInsertedKey ∈ applyTrace [] [Op.insertOp TestInsertParams 5] ∧
    ((TestInsertedKey.responseCode.isSome &&
        TestInsertedKey.responseBody.isSome) = true ↔
      TestInsertedKey.recoveryPoint = RecoveryPoint.finished) :=
  ⟨by decide, response_columns_iff_finished [Op.insertOp TestInsertParams 5]
    TestInsertedKey (by decide)⟩

/-- C4: inserting a key whose `(user_id, key)` is absent from the table
succeeds and returns a row whose recovery point is `started`, whose
response fields are null, whose frozen request fields equal the input
parameters, and whose `locked_at` is `now` — the lease is held. -/
theorem insert_fresh_key (db : DB) (p : KeyParams) (now : Nat)
    (habs : FindKey db p.userID p.key = none) :
    ∃ k db2, InsertKey db p now = Except.ok (k, db2) ∧
      k.recoveryPoint = RecoveryPoint.started ∧
      k.responseCode = none ∧ k.responseBody = none ∧
      k.lockedAt = some now ∧ k.key = p.key ∧ k.userID = p.userID ∧
      k.requestMethod = p.requestMethod ∧ k.requestPath = p.requestPath ∧
      k.requestParams = p.requestParams := by
  have hins : InsertKey db p now =
      Except.ok (freshKey db p now, db ++ [freshKey db p now]) := by
    unfold InsertKey
    rw [habs]
  exact ⟨freshKey db p now, db ++ [freshKey db p now], hins, rfl, rfl, rfl,
    rfl, rfl, rfl, rfl, rfl, rfl⟩

theorem insert_fresh_key_witness :
    FindKey [] TestInsertParams.userID TestInsertParams.key = none ∧
    (∃ k db2, InsertKey [] TestInsertParams 5 = Except.ok (k, db2) ∧
      k.recoveryPoint = RecoveryPoint.started ∧
      k.responseCode = none ∧ k.responseBody = none ∧
      k.lockedAt = some 5 ∧ k.key = TestInsertParams.key ∧
      k.userID = TestInsertParams.userID ∧
      k.requestMethod = TestInsertParams.requestMethod ∧
      k.requestPath = TestInsertParams.requestPath ∧
      k.requestParams = TestInsertParams.requestParams) :=
  ⟨rfl, insert_fresh_key [] TestInsertParams 5 rfl⟩

/-- C5: updating an existing row from `ride_created` to `charge_created`
succeeds and returns the post-update row: the mutable fields
(`recovery_point`, `locked_at`, `last_run_at`, `response_code`,
`response_body`) reflect the update payload and every other field
(`id`, `key`, `user_id` and the frozen request fields) is unchanged. -/
theorem update_ride_to_charge (db : DB) (k stored : Key)
    (hst : rowById db k.id = some stored)
    (hold : stored.recoveryPoint = RecoveryPoint.rideCreated)
    (hnew : k.recoveryPoint = RecoveryPoint.chargeCreated)
    (hcode : k.responseCode = none) (hbody : k.responseBody = none) :
    ∃ u, UpdateKey db k =
        Except.ok (u, db.map (fun r => if r.id == k.id then u else r)) ∧
      u.id = stored.id ∧ u.key = stored.key ∧ u.userID = stored.userID ∧
      u.requestMethod = stored.requestMethod ∧
      u.requestPath = stored.requestPath ∧
      u.requestParams = stored.requestParams ∧
      u.recoveryPoint = k.recoveryPoint ∧ u.lockedAt = k.lockedAt ∧
      u.lastRunAt = k.lastRunAt ∧ u.responseCode = k.responseCode ∧
      u.responseBody = k.responseBody := by
  refine ⟨{ stored with
      recoveryPoint := k.recoveryPoint
      lockedAt := k.lockedAt
      lastRunAt := k.lastRunAt
      responseCode := k.responseCode
      responseBody := k.responseBody }, ?_, rfl, rfl, rfl, rfl, rfl, rfl,
    rfl, rfl, rfl, rfl, rfl⟩
  unfold UpdateKey
  simp [hst, hold, hnew, hcode, hbody, validTransition, RecoveryPoint.idx,
    responseFieldsConsistent]

theorem update_ride_to_charge_witness :
    rowById [TestKeyRideCreated] TestKeyChargeCreatedRow.id =
      some TestKeyRideCreated ∧
    TestKeyRideCreated.recoveryPoint = RecoveryPoint.rideCreated ∧
    TestKeyChargeCreatedRow.recoveryPoint = RecoveryPoint.chargeCreated ∧
    (∃ u, UpdateKey [TestKeyRideCreated] TestKeyChargeCreatedRow =
        Except.ok (u, [TestKeyRideCreated].map
          (fun r => if r.id == TestKeyChargeCreatedRow.id then u else r)) ∧
      u.id = TestKeyRideCreated.id ∧ u.key = TestKeyRideCreated.key ∧
      u.userID = TestKeyRideCreated.userID ∧
      u.requestMethod = TestKeyRideCreated.requestMethod ∧
      u.requestPath = TestKeyRideCreated.requestPath ∧
      u.requestParams = TestKeyRideCreated.requestParams ∧
      u.recoveryPoint = TestKeyChargeCreatedRow.recoveryPoint ∧
      u.lockedAt = TestKeyChargeCreatedRow.lockedAt ∧
      u.lastRunAt = TestKeyChargeCreatedRow.lastRunAt ∧
      u.responseCode = TestKeyChargeCreatedRow.responseCode ∧
      u.responseBody = TestKeyChargeCreatedRow.responseBody) :=
  ⟨rfl, rfl, rfl, update_ride_to_charge [TestKeyRideCreated]
    TestKeyChargeCreatedRow TestKeyRideCreated rfl rfl rfl rfl rfl⟩

/-- C6: a second request bearing the same `(user_id, key)` of a stored row
but a different request method, path or params fails the acquire protocol
with RequestMismatch, surfaced as HTTP 409, and leaves the database — hence
the stored row — unmutated. -/
theorem mismatch_rejected (db : DB) (uid : Nat) (key m p prm : String)
    (row : Key) (now ttl : Nat)
    (hfind : FindKey db uid key = some row)
    (hmis : ¬(row.requestMethod = m ∧ row.requestPath = p ∧
      row.requestParams = prm)) :
    Acquire db uid key m p prm now ttl =
      (Except.error AcqError.requestMismatch, db) ∧
    AcqError.requestMismatch.httpStatus = 409 := by
  refine ⟨?_, rfl⟩
  unfold Acquire
  simp only [hfind]
  have hc : ¬((row.requestMethod == m && row.requestPath == p
      && row.requestParams == prm) = true) := by
    simp only [Bool.and_eq_true, beq_iff_eq]
    exact fun h => hmis ⟨h.1.1, h.1.2, h.2⟩
  rw [if_neg hc]

theorem mismatch_rejected_witness :
    FindKey [TestKeyFinished] 123 "testKeyFinished" = some TestKeyFinished ∧
    ¬(TestKeyFinished.requestMethod = "POST" ∧
      TestKeyFinished.requestPath = "/rides" ∧
      TestKeyFinished.requestParams = "other") ∧
    (Acquire [TestKeyFinished] 123 "testKeyFinished" "POST" "/rides" "other"
        5 90 =
      (Except.error AcqError.requestMismatch, [TestKeyFinished]) ∧
    AcqError.requestMismatch.httpStatus = 409) :=
  ⟨rfl, by decide, mismatch_rejected [TestKeyFinished] 123 "testKeyFinished"
    "POST" "/rides" "other" TestKeyFinished 5 90 rfl (by decide)⟩

/-- C7: Find returns a full stored row matching `(user_id, key)` when one
exists, and signals not-found (`none`) exactly when no row matches; being a
pure read of the database state it performs no writes. -/
theorem find_key_spec (db : DB) (uid : Nat) (key : String) :
    (∀ r, FindKey db uid key = some r →
      r ∈ db ∧ r.userID = uid ∧ r.key = key) ∧
    (FindKey db uid key = none ↔
      ∀ r ∈ db, ¬(r.userID = uid ∧ r.key = key)) := by
  constructor
  · intro r hr
    refine ⟨List.mem_of_find?_eq_some hr, ?_⟩
    have hp := List.find?_some hr
    simp only [Bool.and_eq_true, beq_iff_eq] at hp
    exact hp
  · unfold FindKey
    rw [List.find?_eq_none]
    simp only [Bool.and_eq_true, beq_iff_eq, not_and]

theorem find_key_spec_witness :
    (TestKeyFinished ∈ [TestKeyFinished] ∧ TestKeyFinished.userID = 123 ∧
      TestKeyFinished.key = "testKeyFinished") ∧
    FindKey [TestKeyFinished] 123 "keyThatDoesntExist" = none :=
  ⟨(find_key_spec [TestKeyFinished] 123 "testKeyFinished").1
      TestKeyFinished rfl,
    (find_key_spec [TestKeyFinished] 123 "keyThatDoesntExist").2.mpr
      (by decide)⟩

/-- C8: the recovery-point value set is closed — a persisted tag is
accepted on read exactly when it is one of `started`, `ride_created`,
`charge_created`, `finished`; any unknown tag is a data-corruption error
rather than processed. -/
theorem recovery_point_set_closed (s : String) :
    (∃ rp, parseRecoveryPoint s = Except.ok rp) ↔
      s = "started" ∨ s = "ride_created" ∨ s = "charge_created" ∨
        s = "finished" := by
  unfold parseRecoveryPoint
  split_ifs with h1 h2 h3 h4 <;> simp_all

theorem recovery_point_set_closed_witness :
    (∃ rp, parseRecoveryPoint "charge_created" = Except.ok rp) ∧
    ¬(∃ rp, parseRecoveryPoint "bogus" = Except.ok rp) :=
  ⟨(recovery_point_set_closed "charge_created").mpr
      (Or.inr (Or.inr (Or.inl rfl))),
    fun h => by
      have hd := (recovery_point_set_closed "bogus").mp h
      revert hd
      decide⟩

/-- C9: WriteJSON sets the Content-Type header of the response to
application/json and writes the given status code before the body is
encoded (on an encoder failure the status is already written while the body
is untouched), and it returns exactly the JSON encoder's error — `none`
when encoding succeeds. -/
theorem write_json_spec {T : Type} (encode : T → Except String (List Nat))
    (w : ResponseWriter) (status : Nat) (data : T)
    (hw : w.status = none) :
    getHeader (WriteJSON encode w status data).1 "Content-Type" =
        some "application/json" ∧
    (WriteJSON encode w status data).1.status = some status ∧
    (WriteJSON encode w status data).2 = encodeError (encode data) ∧
    (∀ e, encode data = Except.error e →
      (WriteJSON encode w status data).1.body = w.body) ∧
    (∀ bs, encode data = Except.ok bs →
      (WriteJSON encode w status data).1.body = w.body ++ bs) := by
  unfold WriteJSON encodeError setHeader writeHeader getHeader
  cases henc : encode data <;> simp [henc, hw]

theorem write_json_spec_witness :
    getHeader (WriteJSON (fun n : Nat => Except.ok [n])
        (ResponseWriter.mk [] none []) 201 7).1 "Content-Type" =
      some "application/json" :=
  (write_json_spec (fun n : Nat => Except.ok [n])
    (ResponseWriter.mk [] none []) 201 7 rfl).1

/-- C10 counterexample: with the decoder behaviour `encoding/json`
documents for type errors (fields decoded before the first
`UnmarshalTypeError` stay populated), `Read` returns a partially populated
value — not the zero value of the type — together with a non-nil error. -/
theorem read_error_value_not_zero :
    (Read (0, 0) typeErrorDecode (Reader.mk [1, 2] false)).2.1.isSome
        = true ∧
    (Read (0, 0) typeErrorDecode (Reader.mk [1, 2] false)).1 ≠
      ((0, 0) : Nat × Nat) := by
  constructor
  · rfl
  · decide

/-- C10 (amended): Read returns the value as the decoder left it — the
decoded value on success, possibly partially populated on failure —
together with `none` on success or, on failure, a non-nil error wrapping
the decode error as `decoding json: ...`; and it never closes the reader it
is given. -/
theorem read_spec {T : Type} (zero : T)
    (decode : List Nat → T → T × Option String × List Nat) (r : Reader) :
    (Read zero decode r).1 = (decode r.input zero).1 ∧
    ((Read zero decode r).2.1 = none ↔ (decode r.input zero).2.1 = none) ∧
    (∀ e, (decode r.input zero).2.1 = some e →
      (Read zero decode r).2.1 = some ("decoding json: " ++ e)) ∧
    (Read zero decode r).2.2.closed = r.closed := by
  unfold Read
  cases hd : (decode r.input zero).2.1 <;> simp [hd]

theorem read_spec_witness :
    (Read (0, 0) typeErrorDecode (Reader.mk [3] false)).2.2.closed =
      (Reader.mk [3] false).closed :=
  (read_spec (0, 0) typeErrorDecode (Reader.mk [3] false)).2.2.2

end RocketRides
